import Mathlib

/-!
Verification of the tlcfi_assimilator pipeline: a shallow embedding of the
tick-normalization clock (src/tlcfi_parsing.rs), the state-code tables
(src/lib.rs) and the VLog3 protocol encoder (src/vlog_transformer.rs),
together with theorems settling the specification claims.

Machine integers: the Rust code uses `u64` for ticks and millisecond values.
All values handled stay far below 2^64 (ticks are below 2^32, millisecond
offsets below 2^33), and the only subtractions performed are ones the Rust
code executes without underflow on the inputs considered, so `Nat` is used
with explicit hypotheses where an ordering matters.

Strings: Rust's `format!` hex/decimal conversions are modelled by executable
`Nat`-to-digit functions below; `{:0wX}` is a minimum-width zero-padded
upper-case hex rendering (it widens silently for large values) and `{:?}` on
a `usize` is a plain decimal rendering.
-/

/-- Upper-case hexadecimal digit for a value below 16, as produced by Rust's
`{:X}` formatting. -/
def hexDigit (n : Nat) : Char :=
  if n < 10 then Char.ofNat (48 + n) else Char.ofNat (55 + n)

/-- Fuel-driven most-significant-first hex digit list of `n`; `fuel` is an
upper bound on `n`, making the recursion structural. -/
def hexChars (fuel : Nat) (n : Nat) : List Char :=
  match fuel with
  | 0 => []
  | fuel + 1 => if n < 16 then [hexDigit n] else hexChars fuel (n / 16) ++ [hexDigit (n % 16)]

/-- Rust `format!("{:X}", n)`: upper-case hex, no padding. -/
def natToHex (n : Nat) : String :=
  String.mk (hexChars (n + 1) n)

/-- Rust `format!("{:0wX}", n)`: upper-case hex, zero-padded to a minimum
width of `w` digits. Values needing more than `w` digits widen the field. -/
def hexPad (w n : Nat) : String :=
  String.mk (List.replicate (w - (hexChars (n + 1) n).length) '0' ++ hexChars (n + 1) n)

/-- Decimal digit character. -/
def decDigit (n : Nat) : Char :=
  Char.ofNat (48 + n)

/-- Fuel-driven most-significant-first decimal digit list of `n`. -/
def decChars (fuel : Nat) (n : Nat) : List Char :=
  match fuel with
  | 0 => []
  | fuel + 1 => if n < 10 then [decDigit n] else decChars fuel (n / 10) ++ [decDigit (n % 10)]

/-- Rust `format!("{:?}", n)` on an unsigned integer: plain decimal. -/
def natToDec (n : Nat) : String :=
  String.mk (decChars (n + 1) n)

/-- Rust `format!("{:0w}", n)`: decimal, zero-padded to a minimum width of
`w` digits. -/
def decPad (w n : Nat) : String :=
  String.mk (List.replicate (w - (decChars (n + 1) n).length) '0' ++ decChars (n + 1) n)

/-- Signal aspects, from `src/lib.rs` (`enum SignalState`). -/
inductive SignalState
  | Unavailable
  | Dark
  | Red
  | Amber
  | Green
  | AmberFlashing
deriving DecidableEq, Repr

/-- Detector occupancy, from `src/lib.rs` (`enum DetectorState`). -/
inductive DetectorState
  | FREE
  | OCCUPIED
deriving DecidableEq, Repr

/-- Ingest table from `impl From<u64> for SignalState` in `src/lib.rs`; the
Rust `panic!` on an unknown code is modelled as `none`. -/
def SignalState.from_tlcfi (tlc_fi_state : Nat) : Option SignalState :=
  match tlc_fi_state with
  | 0 => some .Unavailable
  | 1 => some .Dark
  | 2 | 3 => some .Red
  | 5 | 6 => some .Green
  | 7 | 8 => some .Amber
  | 9 => some .AmberFlashing
  | _ => none

/-- Emission table `SignalState::to_vlog_state` in `src/lib.rs`. -/
def SignalState.to_vlog_state : SignalState → Nat
  | .Unavailable => 4
  | .Dark => 4
  | .Red => 0
  | .Green => 1
  | .Amber => 2
  | .AmberFlashing => 5

/-- Ingest table from `impl From<u64> for DetectorState` in `src/lib.rs`; the
Rust `panic!` on an unknown code is modelled as `none`. -/
def DetectorState.from_tlcfi (tlc_fi_state : Nat) : Option DetectorState :=
  match tlc_fi_state with
  | 0 => some .FREE
  | 1 => some .OCCUPIED
  | _ => none

/-- Emission table `DetectorState::to_vlog_state` in `src/lib.rs`. -/
def DetectorState.to_vlog_state : DetectorState → Nat
  | .FREE => 0
  | .OCCUPIED => 1

/-- One change set, from `struct TimestampedChanges` in `src/lib.rs`. -/
structure TimestampedChanges where
  ms_from_beginning : Nat
  signal_names : List String
  signal_states : List SignalState
  detector_names : List String
  detector_states : List DetectorState
deriving DecidableEq, Repr

/-- Rust `..Default::default()` for `TimestampedChanges` with an explicit
`ms_from_beginning`, as used by `split_changes_on_data_limit_signal`. -/
def TimestampedChanges.emptyAt (ms : Nat) : TimestampedChanges :=
  { ms_from_beginning := ms
    signal_names := []
    signal_states := []
    detector_names := []
    detector_states := [] }

/-- The clock fields of `struct AssimilationData` in `src/lib.rs`. The
struct's other fields (`start_time`, `sorted_lines`, `changes`) are not read
or written by the tick-normalization functions and are omitted. -/
structure AssimilationData where
  first_tick : Option Nat
  previous_tick : Option Nat
  bonus_ms : Option Nat
deriving DecidableEq, Repr

/-- Constant `MAX_TICKS` from `src/tlcfi_parsing.rs`. -/
def MAX_TICKS : Nat := 4294967295

/-- Function `handle_tick_overflow_or_reset` from `src/tlcfi_parsing.rs`.
The `.expect` on a missing `previous_tick` (a Rust panic) is modelled as
`none`. -/
def handle_tick_overflow_or_reset (data : AssimilationData) (first_tick tick : Nat) :
    Option (AssimilationData × Nat) :=
  match data.previous_tick with
  | none => none
  | some previous_tick =>
    if MAX_TICKS - previous_tick < 5000 then
      some ({ data with bonus_ms := some (MAX_TICKS - first_tick), first_tick := some tick },
        (MAX_TICKS - first_tick) + tick)
    else
      some ({ data with bonus_ms := some (previous_tick - first_tick), first_tick := some tick },
        previous_tick - first_tick)

/-- Function `find_ms_from_beginning` from `src/tlcfi_parsing.rs`. The
argument `tick_opt` is the `json_obj["params"]["ticks"]` field: `some t`
when it is a JSON number and `none` otherwise; in the latter case the Rust
code returns `1` (a `TODO` branch) without touching the clock state. The
`.expect` on a missing `first_tick` (a Rust panic) is modelled as `none`. -/
def find_ms_from_beginning (tick_opt : Option Nat) (data : AssimilationData) :
    Option (AssimilationData × Nat) :=
  match tick_opt with
  | some tick =>
    match data.first_tick with
    | some first_tick =>
      (if tick < first_tick then
          handle_tick_overflow_or_reset data first_tick tick
        else
          some (data, tick - first_tick)).map
        (fun r => ({ r.1 with previous_tick := some tick }, r.2))
    | none => none
  | none => some (data, 1)

/-- Concatenation of a list of strings, as built by the Rust `push_str`
loops in `src/vlog_transformer.rs`. -/
def strConcat : List String → String
  | [] => ""
  | s :: rest => s ++ strConcat rest

/-- Calendar date and time of day, modelling `chrono::NaiveDateTime` for the
non-negative years this program handles (the field set and ranges follow
chrono: `nanosecond` holds sub-second nanoseconds). -/
structure NaiveDateTime where
  year : Nat
  month : Nat
  day : Nat
  hour : Nat
  minute : Nat
  second : Nat
  nanosecond : Nat
deriving DecidableEq, Repr

/-- Day number of a civil date (days since 0000-03-01, proleptic Gregorian),
the standard era-based algorithm used by chrono-style date arithmetic. -/
def daysFromCivil (y m d : Nat) : Nat :=
  let y2 := if m ≤ 2 then y - 1 else y
  let era := y2 / 400
  let yoe := y2 % 400
  let mp := (m + 9) % 12
  let doy := (153 * mp + 2) / 5 + d - 1
  let doe := yoe * 365 + yoe / 4 - yoe / 100 + doy
  era * 146097 + doe

/-- Inverse of `daysFromCivil`: the civil date of a day number. -/
def civilFromDays (z : Nat) : Nat × Nat × Nat :=
  let era := z / 146097
  let doe := z % 146097
  let yoe := (doe - doe / 1460 + doe / 36524 - doe / 146096) / 365
  let y := yoe + era * 400
  let doy := doe - (365 * yoe + yoe / 4 - yoe / 100)
  let mp := (5 * doy + 2) / 153
  let d := doy - (153 * mp + 2) / 5 + 1
  let m := if mp < 10 then mp + 3 else mp - 9
  (if m ≤ 2 then y + 1 else y, m, d)

/-- chrono's `checked_add_signed(Duration::milliseconds(ms))` for the
non-negative ranges this program uses: whole milliseconds are added and any
sub-millisecond nanoseconds are preserved. -/
def NaiveDateTime.addMilliseconds (dt : NaiveDateTime) (ms : Nat) : NaiveDateTime :=
  let sub_ms_ns := dt.nanosecond % 1000000
  let total := daysFromCivil dt.year dt.month dt.day * 86400000
    + dt.hour * 3600000 + dt.minute * 60000 + dt.second * 1000
    + dt.nanosecond / 1000000 + ms
  let c := civilFromDays (total / 86400000)
  let rem := total % 86400000
  { year := c.1, month := c.2.1, day := c.2.2
    hour := rem / 3600000, minute := rem / 60000 % 60, second := rem / 1000 % 60
    nanosecond := rem % 1000 * 1000000 + sub_ms_ns }

/-- Function `get_time_reference` from `src/vlog_transformer.rs`: type byte
`01`, then year/month/day/hour/minute/second via `{:02}` decimal fields, one
digit of deciseconds (`nanosecond / 100000000`), and a trailing `0` pad. -/
def get_time_reference (start_date_time : NaiveDateTime) (ms_since_beginning : Nat) : String :=
  let reference_time := start_date_time.addMilliseconds ms_since_beginning
  let date_string := decPad 2 reference_time.year ++ decPad 2 reference_time.month
    ++ decPad 2 reference_time.day
  let time_string := decPad 2 reference_time.hour ++ decPad 2 reference_time.minute
    ++ decPad 2 reference_time.second ++ decPad 1 (reference_time.nanosecond / 100000000)
  hexPad 2 1 ++ date_string ++ time_string ++ "0"

/-- Function `get_vlog_info` from `src/vlog_transformer.rs`. The controller
name is given as its UTF-16 code units plus its UTF-8 byte length (Rust's
`tlc_name.encode_utf16()` and `tlc_name.len()`). The Rust loop pushes the
unit at index `i` and only then checks `if i > 19 break`, so it keeps up to
21 units; padding with `20` pairs applies when the byte length is below
20. -/
def get_vlog_info (tlc_name_utf16 : List Nat) (tlc_name_byte_len : Nat) : String :=
  let encoded_tlc_name := strConcat ((tlc_name_utf16.take 21).map (fun u => hexPad 2 u))
    ++ strConcat (List.replicate (20 - tlc_name_byte_len) "20")
  hexPad 2 4 ++ "030000" ++ encoded_tlc_name

/-- Function `from_tlcfi_time_to_vlog_time` from `src/vlog_transformer.rs`:
tlcfi time is in milliseconds, vlog time in deciseconds (truncating). -/
def from_tlcfi_time_to_vlog_time (tlcfi_time : Nat) : Nat :=
  tlcfi_time / 100

/-- Positional pairing of two parallel vectors, names first. `none` models
the Rust index panic when the second vector is exhausted before the first
(`changes.signal_states[i]` inside the split loop). -/
def zipExact {α β : Type} : List α → List β → Option (List (α × β))
  | [], _ => some []
  | _ :: _, [] => none
  | a :: l1, b :: l2 => (zipExact l1 l2).map (fun l => (a, b) :: l)

/-- Loop of `split_changes_on_data_limit_signal` from
`src/vlog_transformer.rs`: walk the name/state pairs, appending to the
accumulator `cur`, flushing it every time the running count reaches
`max_amount`, and pushing the final accumulator after the loop ends. -/
def split_go (ms max_amount : Nat) :
    List (String × SignalState) → Nat → TimestampedChanges → List TimestampedChanges
  | [], _, cur => [cur]
  | p :: rest, cnt, cur =>
    let cur2 := { cur with
      signal_names := cur.signal_names ++ [p.1]
      signal_states := cur.signal_states ++ [p.2] }
    if cnt + 1 = max_amount then
      cur2 :: split_go ms max_amount rest 0 (TimestampedChanges.emptyAt ms)
    else
      split_go ms max_amount rest (cnt + 1) cur2

/-- Function `split_changes_on_data_limit_signal` from
`src/vlog_transformer.rs`: `max_amount = 40 / data_size`, and the only
caller passes `data_size = 4`, giving a 10-entry cap per chunk. -/
def split_changes_on_data_limit_signal (changes : TimestampedChanges) (data_size : Nat) :
    Option (List TimestampedChanges) :=
  (zipExact changes.signal_names changes.signal_states).map
    (fun pairs => split_go changes.ms_from_beginning (40 / data_size) pairs 0
      (TimestampedChanges.emptyAt changes.ms_from_beginning))

/-- Ascending-VLog-id ordering on (original index, id) pairs, the comparator
`id1.partial_cmp(id2)` passed to the stable `sort_by` in both transforms. -/
def byVlogId (p q : Nat × Nat) : Prop :=
  p.2 ≤ q.2

instance : DecidableRel byVlogId :=
  fun p q => Nat.decLe p.2 q.2

/-- The `vlog_ids_in_message` vector built in both transforms: each name is
looked up in the mapping (`none` models the Rust panic on a missing name)
and paired with its original index. -/
def vlog_ids_in_message (mapping : String → Option Nat) (names : List String) :
    Option (List (Nat × Nat)) :=
  names.enum.mapM (fun p => (mapping p.2).map (fun id => (p.1, id)))

/-- Loop body of `transform_signal_changes` from `src/vlog_transformer.rs`
for one split chunk: type byte `0E`, `{:03X}` delta time, `{:X}` entry
count, then for each pair of the stable ascending-id sort the `{:02X}` id
and `{:02X}` VLog state code of `signal_states[index]`. Rust's stable
`sort_by` is modelled by Mathlib's stable `insertionSort`, which produces
the identical permutation for this total comparator. -/
def signal_message (vlog_signal_name_mapping : String → Option Nat)
    (ms_of_last_time_reference : Nat) (changes : TimestampedChanges) : Option String := do
  let data_amount := natToHex changes.signal_names.length
  let static_string := "0E"
    ++ hexPad 3 (from_tlcfi_time_to_vlog_time
        (changes.ms_from_beginning - ms_of_last_time_reference))
    ++ data_amount
  let ids ← vlog_ids_in_message vlog_signal_name_mapping changes.signal_names
  let dynamic ← (List.insertionSort byVlogId ids).mapM (fun p =>
    (changes.signal_states.get? p.1).map
      (fun st => hexPad 2 p.2 ++ hexPad 2 st.to_vlog_state))
  pure (static_string ++ strConcat dynamic)

/-- Function `transform_signal_changes` from `src/vlog_transformer.rs`:
split on the data limit (`data_size = 4`), then emit one message per
chunk. -/
def transform_signal_changes (signal_changes : TimestampedChanges)
    (vlog_signal_name_mapping : String → Option Nat) (ms_of_last_time_reference : Nat) :
    Option (List String) := do
  let chunks ← split_changes_on_data_limit_signal signal_changes 4
  chunks.mapM (signal_message vlog_signal_name_mapping ms_of_last_time_reference)

/-- Function `transform_detector_changes` from `src/vlog_transformer.rs`:
type byte `06`, `{:03X}` delta time, then the entry count rendered with
`{:?}` — plain decimal, unlike the signal transform's `{:X}` — and the
stable ascending-id sorted id/state pairs. No data-limit split is
applied. -/
def transform_detector_changes (detector_changes : TimestampedChanges)
    (vlog_detector_name_mapping : String → Option Nat) (ms_of_last_time_reference : Nat) :
    Option String := do
  let data_amount := natToDec detector_changes.detector_names.length
  let static_string := "06"
    ++ hexPad 3 (from_tlcfi_time_to_vlog_time
        (detector_changes.ms_from_beginning - ms_of_last_time_reference))
    ++ data_amount
  let ids ← vlog_ids_in_message vlog_detector_name_mapping detector_changes.detector_names
  let dynamic ← (List.insertionSort byVlogId ids).mapM (fun p =>
    (detector_changes.detector_states.get? p.1).map
      (fun st => hexPad 2 p.2 ++ hexPad 2 st.to_vlog_state))
  pure (static_string ++ strConcat dynamic)

/-- Constant `TIME_REFERENCE_INTERVAL_IN_S` from `src/vlog_transformer.rs`. -/
def TIME_REFERENCE_INTERVAL_IN_S : Nat := 300

/-- Function `insert_vlog_statuses` from `src/vlog_transformer.rs`: the
header block, a time reference at elapsed 0 followed by the identification
record. -/
def insert_vlog_statuses (start_date_time : NaiveDateTime) (tlc_name_utf16 : List Nat)
    (tlc_name_byte_len : Nat) : List String :=
  [get_time_reference start_date_time 0, get_vlog_info tlc_name_utf16 tlc_name_byte_len]

/-- The change-emission part of the `to_vlog` loop body: signal messages if
the change set has signal names, else one detector message if it has
detector names, else nothing. -/
def change_messages (vlog_signal_name_mapping vlog_detector_name_mapping : String → Option Nat)
    (ms_of_last_time_reference : Nat) (tc : TimestampedChanges) : Option (List String) :=
  if tc.signal_names ≠ [] then
    transform_signal_changes tc vlog_signal_name_mapping ms_of_last_time_reference
  else if tc.detector_names ≠ [] then
    (transform_detector_changes tc vlog_detector_name_mapping ms_of_last_time_reference).map
      (fun m => [m])
  else
    some []

/-- One iteration of the `to_vlog` loop from `src/vlog_transformer.rs`:
`acc` is the (messages so far, `ms_of_last_time_reference`) state. If the
change set's `ms_from_beginning` is at least `TIME_REFERENCE_INTERVAL_IN_S *
1000` past the last reference, a new time reference anchored at this change
set's `ms_from_beginning` is pushed first and the reference timestamp
updated; then the change messages are appended. -/
def to_vlog_step (vlog_signal_name_mapping vlog_detector_name_mapping : String → Option Nat)
    (start_date_time : NaiveDateTime) (acc : List String × Nat) (tc : TimestampedChanges) :
    Option (List String × Nat) :=
  let a := if TIME_REFERENCE_INTERVAL_IN_S * 1000 ≤ tc.ms_from_beginning - acc.2 then
      (acc.1 ++ [get_time_reference start_date_time tc.ms_from_beginning], tc.ms_from_beginning)
    else acc
  (change_messages vlog_signal_name_mapping vlog_detector_name_mapping a.2 tc).map
    (fun m => (a.1 ++ m, a.2))

/-- Function `to_vlog` from `src/vlog_transformer.rs`. The mapping file
loading (`load_mappings`) and the controller name are external inputs per
the interface contract, so the two name→id maps and the name's UTF-16/byte
data are parameters here; the loop over the change sets is the fold of
`to_vlog_step` starting from the header block and reference timestamp 0. -/
def to_vlog (timestamped_changes_vec : List TimestampedChanges)
    (start_date_time : NaiveDateTime)
    (vlog_signal_name_mapping vlog_detector_name_mapping : String → Option Nat)
    (tlc_name_utf16 : List Nat) (tlc_name_byte_len : Nat) : Option (List String) :=
  (timestamped_changes_vec.foldlM
      (to_vlog_step vlog_signal_name_mapping vlog_detector_name_mapping start_date_time)
      (insert_vlog_statuses start_date_time tlc_name_utf16 tlc_name_byte_len, 0)).map
    Prod.fst

/-- The signal name→id mapping of the repository's transformer tests
(`get_test_vlog_signal_name_mapping`). -/
def test_vlog_signal_name_mapping : String → Option Nat := fun name =>
  ([("01", 0), ("02", 1), ("03", 2), ("04", 3), ("05", 4), ("06", 5), ("07", 6),
    ("08", 7), ("09", 8), ("10", 9), ("11", 10), ("12", 11), ("13", 12), ("14", 13),
    ("15", 14), ("16", 15), ("17", 16), ("18", 17), ("71", 18)] :
      List (String × Nat)).lookup name

/-- The detector name→id mapping of the repository's transformer tests
(`get_test_vlog_detector_name_mapping`). -/
def test_vlog_detector_name_mapping : String → Option Nat := fun name =>
  ([("D712", 4), ("D713", 2)] : List (String × Nat)).lookup name

/-- The 18-entry signal change set of the repository test
`transforming_more_than_40_bits_of_changes_should_make_multiple_messages`. -/
def testChanges18 : TimestampedChanges :=
  { ms_from_beginning := 530
    signal_names := ["01", "02", "03", "04", "05", "06", "07", "08", "09", "10",
      "11", "12", "13", "14", "15", "16", "17", "18"]
    signal_states := List.replicate 18 SignalState.Red
    detector_names := []
    detector_states := [] }

instance : IsTotal (Nat × Nat) byVlogId :=
  ⟨fun a b => Nat.le_total a.2 b.2⟩

instance : IsTrans (Nat × Nat) byVlogId :=
  ⟨fun _ _ _ h1 h2 => Nat.le_trans h1 h2⟩

/-- A 10-entry prefix of the 18-entry repository test change set. -/
def testChanges10 : TimestampedChanges :=
  { ms_from_beginning := 530
    signal_names := ["01", "02", "03", "04", "05", "06", "07", "08", "09", "10"]
    signal_states := List.replicate 10 SignalState.Red
    detector_names := []
    detector_states := [] }

/-- A one-entry signal change set whose delta time (409600 ms = 4096 ds)
does not fit in three hex digits. -/
def testChangesWide : TimestampedChanges :=
  { ms_from_beginning := 409600
    signal_names := ["01"]
    signal_states := [SignalState.Red]
    detector_names := []
    detector_states := [] }

/-- A detector change set with ten entries (detector records are not
split). -/
def testChangesDet10 : TimestampedChanges :=
  { ms_from_beginning := 0
    signal_names := []
    signal_states := []
    detector_names := ["d0", "d1", "d2", "d3", "d4", "d5", "d6", "d7", "d8", "d9"]
    detector_states := List.replicate 10 DetectorState.FREE }

/-- A ten-entry detector name→id mapping for `testChangesDet10`. -/
def test_wide_detector_mapping : String → Option Nat := fun name =>
  ([("d0", 0), ("d1", 1), ("d2", 2), ("d3", 3), ("d4", 4), ("d5", 5), ("d6", 6),
    ("d7", 7), ("d8", 8), ("d9", 9)] : List (String × Nat)).lookup name

/-- The start date/time of the repository's transformer tests,
2021-12-15T11:00:00.000. -/
def testStartDateTime : NaiveDateTime :=
  { year := 2021, month := 12, day := 15, hour := 11, minute := 0, second := 0,
    nanosecond := 0 }

/-- C2: for a tick `t` below `first_tick`, a previous tick within 5000 of
`MAX_TICKS` is treated as a genuine overflow (`bonus_ms := MAX_TICKS −
first_tick`, `first_tick := t`, emit `bonus_ms + t`), and otherwise as a
controller reset (`bonus_ms := previous_tick − first_tick`, `first_tick :=
t`, emit `bonus_ms`); in both cases `previous_tick` becomes `t`. The two
concrete examples of the claim evaluate to 412 and 33545618. -/
theorem clock_overflow_or_reset_C2 :
    (∀ (d : AssimilationData) (ft pt t : Nat),
        d.first_tick = some ft → d.previous_tick = some pt → t < ft →
        MAX_TICKS - pt < 5000 →
        find_ms_from_beginning (some t) d =
          some ({ first_tick := some t, previous_tick := some t,
                  bonus_ms := some (MAX_TICKS - ft) }, (MAX_TICKS - ft) + t))
  ∧ (∀ (d : AssimilationData) (ft pt t : Nat),
        d.first_tick = some ft → d.previous_tick = some pt → t < ft →
        5000 ≤ MAX_TICKS - pt →
        find_ms_from_beginning (some t) d =
          some ({ first_tick := some t, previous_tick := some t,
                  bonus_ms := some (pt - ft) }, pt - ft))
  ∧ (find_ms_from_beginning (some 12)
        { first_tick := some 4294966895, previous_tick := some 4294967095, bonus_ms := none }).map
        Prod.snd = some 412
  ∧ (find_ms_from_beginning (some 29224)
        { first_tick := some 293219704, previous_tick := some 326765322, bonus_ms := none }).map
        Prod.snd = some 33545618 := by
  refine ⟨?_, ?_, by decide, by decide⟩
  · intro d ft pt t h1 h2 h3 h4
    obtain ⟨f, p, b⟩ := d
    cases h1
    cases h2
    simp only [find_ms_from_beginning, handle_tick_overflow_or_reset, if_pos h3, if_pos h4]
    rfl
  · intro d ft pt t h1 h2 h3 h4
    obtain ⟨f, p, b⟩ := d
    cases h1
    cases h2
    simp only [find_ms_from_beginning, handle_tick_overflow_or_reset, if_pos h3,
      if_neg (Nat.not_lt.2 h4)]
    rfl

/-- Witness for C2: both branches applied at the spec's concrete inputs. -/
theorem clock_overflow_or_reset_C2_witness :
    find_ms_from_beginning (some 12)
        { first_tick := some 4294966895, previous_tick := some 4294967095, bonus_ms := none } =
      some ({ first_tick := some 12, previous_tick := some 12, bonus_ms := some 400 }, 412)
  ∧ find_ms_from_beginning (some 29224)
        { first_tick := some 293219704, previous_tick := some 326765322, bonus_ms := none } =
      some ({ first_tick := some 29224, previous_tick := some 29224,
              bonus_ms := some 33545618 }, 33545618) :=
  ⟨clock_overflow_or_reset_C2.1
      { first_tick := some 4294966895, previous_tick := some 4294967095, bonus_ms := none }
      4294966895 4294967095 12 rfl rfl (by decide) (by decide),
   clock_overflow_or_reset_C2.2.1
      { first_tick := some 293219704, previous_tick := some 326765322, bonus_ms := none }
      293219704 326765322 29224 rfl rfl (by decide) (by decide)⟩

/-- C3: for a tick `t` with `first_tick ≤ t` the emitted value is
`t − first_tick`; the accumulated `bonus_ms` (arbitrary in `d`) is not added
into the emitted value, `first_tick` and `bonus_ms` are left unchanged, and
`previous_tick` is set to `t` afterwards. -/
theorem clock_normal_branch_C3 (d : AssimilationData) (ft t : Nat)
    (h1 : d.first_tick = some ft) (h2 : ft ≤ t) :
    find_ms_from_beginning (some t) d =
      some ({ d with previous_tick := some t }, t - ft) := by
  simp only [find_ms_from_beginning, h1, if_neg (Nat.not_lt.2 h2)]
  simp [h1]

/-- Witness for C3: a state with a non-zero accumulated `bonus_ms` of 77777
still emits plain `t − first_tick = 60`. -/
theorem clock_normal_branch_C3_witness :
    find_ms_from_beginning (some 160)
        { first_tick := some 100, previous_tick := some 150, bonus_ms := some 77777 } =
      some ({ first_tick := some 100, previous_tick := some 160, bonus_ms := some 77777 }, 60) :=
  clock_normal_branch_C3
    { first_tick := some 100, previous_tick := some 150, bonus_ms := some 77777 }
    100 160 rfl (by decide)

/-- C4 (code bug): when the `ticks` field is absent or not a JSON number,
`find_ms_from_beginning` does not fail; it returns `ms_from_beginning = 1`
with the clock state untouched, so the update is processed with that time
value instead of being rejected with a `MissingTick` error. -/
theorem missing_tick_returns_one_C4 :
    ∀ d : AssimilationData, find_ms_from_beginning none d = some (d, 1) :=
  fun _ => rfl

/-- C9: the ingest tables map every raw code of the closed domains to
exactly the claimed enum value, the emission tables return the claimed
protocol codes, and every raw code outside the domains (4 or at least 10
for signals, at least 2 for detectors) is fatal. -/
theorem state_code_tables_C9 :
    (SignalState.from_tlcfi 0 = some SignalState.Unavailable
      ∧ SignalState.from_tlcfi 1 = some SignalState.Dark
      ∧ SignalState.from_tlcfi 2 = some SignalState.Red
      ∧ SignalState.from_tlcfi 3 = some SignalState.Red
      ∧ SignalState.from_tlcfi 5 = some SignalState.Green
      ∧ SignalState.from_tlcfi 6 = some SignalState.Green
      ∧ SignalState.from_tlcfi 7 = some SignalState.Amber
      ∧ SignalState.from_tlcfi 8 = some SignalState.Amber
      ∧ SignalState.from_tlcfi 9 = some SignalState.AmberFlashing)
  ∧ (SignalState.Unavailable.to_vlog_state = 4 ∧ SignalState.Dark.to_vlog_state = 4
      ∧ SignalState.Red.to_vlog_state = 0 ∧ SignalState.Green.to_vlog_state = 1
      ∧ SignalState.Amber.to_vlog_state = 2 ∧ SignalState.AmberFlashing.to_vlog_state = 5)
  ∧ (DetectorState.from_tlcfi 0 = some DetectorState.FREE
      ∧ DetectorState.from_tlcfi 1 = some DetectorState.OCCUPIED
      ∧ DetectorState.FREE.to_vlog_state = 0 ∧ DetectorState.OCCUPIED.to_vlog_state = 1)
  ∧ SignalState.from_tlcfi 4 = none
  ∧ (∀ n : Nat, SignalState.from_tlcfi (n + 10) = none)
  ∧ (∀ n : Nat, DetectorState.from_tlcfi (n + 2) = none) :=
  ⟨by decide, by decide, by decide, rfl, fun _ => rfl, fun _ => rfl⟩

/-- Sanity check mirroring the repository test
`get_time_reference_should_create_a_time_reference_message_based_on_the_ms_since_beginning`:
2021-12-15T11:00:00.000 plus 5212 ms encodes to `012021121511000520`. -/
theorem sanity_time_reference :
    get_time_reference
      { year := 2021, month := 12, day := 15, hour := 11, minute := 0, second := 0,
        nanosecond := 0 } 5212 = "012021121511000520" := by decide

set_option maxRecDepth 4096 in
/-- Two-hex-digit rendering of a byte value has exactly two characters. -/
theorem hexPad_two_length (u : Nat) (h : u < 256) : (hexPad 2 u).length = 2 := by
  revert u h
  decide

/-- Length of the concatenated two-digit hex codes of a list of bytes. -/
theorem strConcat_map_hexPad_two_length (l : List Nat) (h : ∀ u ∈ l, u < 256) :
    (strConcat (l.map (fun u => hexPad 2 u))).length = 2 * l.length := by
  induction l with
  | nil => rfl
  | cons a l ih =>
    simp only [List.map_cons, strConcat, String.length_append]
    rw [hexPad_two_length a (h a (List.mem_cons_self a l)),
      ih (fun u hu => h u (List.mem_cons_of_mem a hu)), List.length_cons]
    omega

/-- Length of `k` concatenated `20` padding pairs. -/
theorem strConcat_replicate_pad_length (k : Nat) :
    (strConcat (List.replicate k "20")).length = 2 * k := by
  induction k with
  | zero => rfl
  | succ k ih =>
    simp only [List.replicate_succ, strConcat, String.length_append, ih]
    have h20 : ("20" : String).length = 2 := rfl
    rw [h20]
    omega

/-- C5 counterexample: a 21-ASCII-character controller name (21 UTF-16 code
units, 21 bytes) is not truncated to 20 code units; all 21 units are kept,
giving a 50-character record instead of the claimed 48 (8 header digits plus
40 name digits). -/
theorem identification_record_C5_counterexample :
    get_vlog_info (List.replicate 21 97) 21 = "04030000" ++ strConcat (List.replicate 21 "61")
  ∧ (get_vlog_info (List.replicate 21 97) 21).length = 50
  ∧ ¬ (get_vlog_info (List.replicate 21 97) 21).length = 48 := by
  refine ⟨by decide, by decide, by decide⟩

/-- C5 (amended): the Identification record is the type byte `04`, the fixed
version field `030000`, then the controller name as UTF-16 code units in
2-hex-digit pairs right-padded with `20` pairs to 20 slots — but names
longer than 20 units are truncated to 21 units (the loop breaks only after
emitting the unit at index 20), not 20, and the padding count is based on
the name's UTF-8 byte length. For names of at most 20 single-byte units the
record has exactly 48 hex digits, and `"test"` encodes to
`040300007465737420202020202020202020202020202020`. -/
theorem identification_record_C5 :
    get_vlog_info [116, 101, 115, 116] 4 =
      "040300007465737420202020202020202020202020202020"
  ∧ (∀ (units : List Nat) (blen : Nat),
      get_vlog_info units blen = get_vlog_info (units.take 21) blen)
  ∧ (∀ (units : List Nat) (blen : Nat), units.length = blen → blen ≤ 20 →
      (∀ u ∈ units, u < 256) → (get_vlog_info units blen).length = 48) := by
  refine ⟨by decide, ?_, ?_⟩
  · intro units blen
    simp [get_vlog_info, List.take_take]
  · intro units blen h1 h2 h3
    have htake : units.take 21 = units := List.take_of_length_le (by omega)
    simp only [get_vlog_info, String.length_append, htake]
    rw [strConcat_map_hexPad_two_length units h3, strConcat_replicate_pad_length]
    have : (hexPad 2 4).length = 2 := by decide
    rw [this]
    have : ("030000" : String).length = 6 := by decide
    rw [this]
    omega

/-- Witness for C5: the third conjunct applied at the name `"test"`. -/
theorem identification_record_C5_witness :
    (get_vlog_info [116, 101, 115, 116] 4).length = 48 :=
  identification_record_C5.2.2 [116, 101, 115, 116] 4 rfl (by decide) (by decide)

/-- Sanity check mirroring the repository test
`transform_signal_changes_should_create_a_vlog_signal_change_message`. -/
theorem sanity_signal_change_message :
    transform_signal_changes
      { ms_from_beginning := 530
        signal_names := ["11", "71"]
        signal_states := [SignalState.Amber, SignalState.Red]
        detector_names := []
        detector_states := [] }
      test_vlog_signal_name_mapping 180 = some ["0E00320A021200"] := by decide

/-- Sanity check mirroring the repository test
`transform_detector_changes_should_create_a_vlog_sensor_change_message`. -/
theorem sanity_detector_change_message :
    transform_detector_changes
      { ms_from_beginning := 640
        signal_names := []
        signal_states := []
        detector_names := ["D712", "D713"]
        detector_states := [DetectorState.OCCUPIED, DetectorState.FREE] }
      test_vlog_detector_name_mapping 80 = some "06005202000401" := by decide

/-- The hex digit list does not depend on the fuel as long as the fuel
exceeds the value. -/
theorem hexChars_fuel_eq : ∀ (f1 f2 n : Nat), n < f1 → n < f2 → hexChars f1 n = hexChars f2 n := by
  intro f1
  induction f1 with
  | zero => intro f2 n h1 _; omega
  | succ f1 ih =>
    intro f2 n h1 h2
    match f2, h2 with
    | f2 + 1, h2 =>
      simp only [hexChars]
      by_cases h16 : n < 16
      · simp [h16]
      · have hpos : 0 < n := by omega
        have hdiv : n / 16 < n := Nat.div_lt_self hpos (by omega)
        rw [if_neg h16, if_neg h16, ih f2 (n / 16) (by omega) (by omega)]

/-- A value below `16 ^ (k + 1)` has at most `k + 1` hex digits. -/
theorem hexChars_length_le :
    ∀ (k fuel n : Nat), n < fuel → n < 16 ^ (k + 1) → (hexChars fuel n).length ≤ k + 1 := by
  intro k
  induction k with
  | zero =>
    intro fuel n hf hk
    match fuel, hf with
    | fuel + 1, _ =>
      simp only [hexChars]
      rw [if_pos (by simpa using hk)]
      simp
  | succ k ih =>
    intro fuel n hf hk
    match fuel, hf with
    | fuel + 1, hf =>
      simp only [hexChars]
      by_cases h16 : n < 16
      · simp [h16]
      · have hpos : 0 < n := by omega
        have hdiv : n / 16 < n := Nat.div_lt_self hpos (by omega)
        have hbound : n / 16 < 16 ^ (k + 1) := by
          rw [Nat.div_lt_iff_lt_mul (by omega : 0 < 16)]
          calc n < 16 ^ (k + 1 + 1) := hk
          _ = 16 ^ (k + 1) * 16 := by ring
        rw [if_neg h16]
        simp only [List.length_append, List.length_cons, List.length_nil]
        have := ih fuel (n / 16) (by omega) hbound
        omega

/-- A delta value below `4096` renders as exactly three hex digits under
`{:03X}`. -/
theorem hexPad_three_length (n : Nat) (h : n < 4096) : (hexPad 3 n).length = 3 := by
  have hlen : (hexChars (n + 1) n).length ≤ 3 := by
    have := hexChars_length_le 2 (n + 1) n (Nat.lt_succ_self n) (by omega)
    omega
  simp only [hexPad, String.length_mk, List.length_append, List.length_replicate]
  omega

/-- Successful `zipExact` yields the first list as its first components and
a prefix of the second list as its second components. -/
theorem zipExact_eq_some {α β : Type} :
    ∀ (l1 : List α) (l2 : List β) (ps : List (α × β)), zipExact l1 l2 = some ps →
      ps.map Prod.fst = l1 ∧ ps.map Prod.snd = l2.take l1.length := by
  intro l1
  induction l1 with
  | nil =>
    intro l2 ps h
    simp only [zipExact, Option.some.injEq] at h
    subst h
    simp
  | cons a l1 ih =>
    intro l2 ps h
    match l2 with
    | [] => simp [zipExact] at h
    | b :: l2 =>
      simp only [zipExact, Option.map_eq_some'] at h
      obtain ⟨ps0, hps0, hcons⟩ := h
      subst hcons
      obtain ⟨h1, h2⟩ := ih l2 ps0 hps0
      simp [h1, h2]

/-- The split loop never produces an empty chunk list. -/
theorem split_go_ne_nil (ms max_amount : Nat) :
    ∀ (pairs : List (String × SignalState)) (cnt : Nat) (cur : TimestampedChanges),
      split_go ms max_amount pairs cnt cur ≠ [] := by
  intro pairs
  induction pairs with
  | nil => intro cnt cur; simp [split_go]
  | cons p rest ih =>
    intro cnt cur
    simp only [split_go]
    by_cases h : cnt + 1 = max_amount
    · simp [h]
    · rw [if_neg h]
      exact ih (cnt + 1) _

/-- Concatenating the chunk name lists of the split loop restores the
accumulator's names followed by the names of the remaining pairs. -/
theorem split_go_names (ms max_amount : Nat) :
    ∀ (pairs : List (String × SignalState)) (cnt : Nat) (cur : TimestampedChanges),
      ((split_go ms max_amount pairs cnt cur).map TimestampedChanges.signal_names).flatten
        = cur.signal_names ++ pairs.map Prod.fst := by
  intro pairs
  induction pairs with
  | nil => intro cnt cur; simp [split_go]
  | cons p rest ih =>
    intro cnt cur
    simp only [split_go]
    by_cases h : cnt + 1 = max_amount
    · rw [if_pos h]
      simp only [List.map_cons, List.flatten_cons, ih]
      simp [TimestampedChanges.emptyAt, List.append_assoc]
    · rw [if_neg h, ih]
      simp [List.append_assoc]

/-- Concatenating the chunk state lists of the split loop restores the
accumulator's states followed by the states of the remaining pairs. -/
theorem split_go_states (ms max_amount : Nat) :
    ∀ (pairs : List (String × SignalState)) (cnt : Nat) (cur : TimestampedChanges),
      ((split_go ms max_amount pairs cnt cur).map TimestampedChanges.signal_states).flatten
        = cur.signal_states ++ pairs.map Prod.snd := by
  intro pairs
  induction pairs with
  | nil => intro cnt cur; simp [split_go]
  | cons p rest ih =>
    intro cnt cur
    simp only [split_go]
    by_cases h : cnt + 1 = max_amount
    · rw [if_pos h]
      simp only [List.map_cons, List.flatten_cons, ih]
      simp [TimestampedChanges.emptyAt, List.append_assoc]
    · rw [if_neg h, ih]
      simp [List.append_assoc]

/-- Every chunk produced by the split loop keeps the source's
`ms_from_beginning`. -/
theorem split_go_ms (ms max_amount : Nat) :
    ∀ (pairs : List (String × SignalState)) (cnt : Nat) (cur : TimestampedChanges),
      cur.ms_from_beginning = ms →
      ∀ c ∈ split_go ms max_amount pairs cnt cur, c.ms_from_beginning = ms := by
  intro pairs
  induction pairs with
  | nil =>
    intro cnt cur hcur c hc
    simp only [split_go, List.mem_singleton] at hc
    subst hc
    exact hcur
  | cons p rest ih =>
    intro cnt cur hcur c hc
    simp only [split_go] at hc
    by_cases h : cnt + 1 = max_amount
    · rw [if_pos h] at hc
      rcases List.mem_cons.1 hc with h1 | h1
      · subst h1; exact hcur
      · exact ih 0 _ rfl c h1
    · rw [if_neg h] at hc
      refine ih (cnt + 1) _ ?_ c hc
      exact hcur

/-- Every chunk produced by the split loop carries at most `max_amount`
entries, provided the accumulator's fill level is below `max_amount`. -/
theorem split_go_length_le (ms max_amount : Nat) :
    ∀ (pairs : List (String × SignalState)) (cnt : Nat) (cur : TimestampedChanges),
      cnt < max_amount → cur.signal_names.length = cnt →
      ∀ c ∈ split_go ms max_amount pairs cnt cur, c.signal_names.length ≤ max_amount := by
  intro pairs
  induction pairs with
  | nil =>
    intro cnt cur hlt hlen c hc
    simp only [split_go, List.mem_singleton] at hc
    subst hc
    omega
  | cons p rest ih =>
    intro cnt cur hlt hlen c hc
    simp only [split_go] at hc
    by_cases h : cnt + 1 = max_amount
    · rw [if_pos h] at hc
      rcases List.mem_cons.1 hc with h1 | h1
      · subst h1
        simp only [List.length_append, List.length_cons, List.length_nil, hlen]
        omega
      · exact ih 0 _ (by omega) (by simp [TimestampedChanges.emptyAt]) c h1
    · rw [if_neg h] at hc
      refine ih (cnt + 1) _ (by omega) ?_ c hc
      simp only [List.length_append, List.length_cons, List.length_nil, hlen]

/-- Chunk count of the split loop: one flush per full `max_amount` of
processed entries plus the final push. -/
theorem split_go_length (ms max_amount : Nat) :
    ∀ (pairs : List (String × SignalState)) (cnt : Nat) (cur : TimestampedChanges),
      cnt < max_amount →
      (split_go ms max_amount pairs cnt cur).length = (cnt + pairs.length) / max_amount + 1 := by
  intro pairs
  induction pairs with
  | nil =>
    intro cnt cur hlt
    simp only [split_go, List.length_singleton, List.length_nil, Nat.add_zero]
    rw [Nat.div_eq_of_lt hlt]
  | cons p rest ih =>
    intro cnt cur hlt
    simp only [split_go]
    by_cases h : cnt + 1 = max_amount
    · rw [if_pos h]
      simp only [List.length_cons, ih 0 _ (by omega), Nat.zero_add]
      have heq : cnt + (rest.length + 1) = max_amount + rest.length := by omega
      rw [heq, Nat.add_div_left rest.length (by omega)]
    · rw [if_neg h, ih (cnt + 1) _ (by omega)]
      simp only [List.length_cons]
      have heq : cnt + (rest.length + 1) = (cnt + 1) + rest.length := by omega
      rw [heq]

/-- The last element of a cons list is the last element of its nonempty
tail. -/
theorem getLast?_cons_of_ne_nil {α : Type} (a : α) (l : List α) (h : l ≠ []) :
    (a :: l).getLast? = l.getLast? := by
  match l, h with
  | b :: t, _ => rfl

/-- When the number of processed entries is an exact positive multiple of
`max_amount`, the final push of the split loop is an empty chunk. -/
theorem split_go_last_empty (ms max_amount : Nat) :
    ∀ (pairs : List (String × SignalState)) (cnt : Nat) (cur : TimestampedChanges),
      cnt < max_amount → (cnt = 0 → cur = TimestampedChanges.emptyAt ms) →
      max_amount ∣ (cnt + pairs.length) →
      (split_go ms max_amount pairs cnt cur).getLast?
        = some (TimestampedChanges.emptyAt ms) := by
  intro pairs
  induction pairs with
  | nil =>
    intro cnt cur hlt hcur hdvd
    have hc0 : cnt = 0 := by
      rcases hdvd with ⟨k, hk⟩
      simp only [List.length_nil, Nat.add_zero] at hk
      match k, hk with
      | 0, hk => omega
      | k + 1, hk => exfalso; nlinarith
    rw [hcur hc0]
    rfl
  | cons p rest ih =>
    intro cnt cur hlt hcur hdvd
    simp only [split_go]
    by_cases h : cnt + 1 = max_amount
    · rw [if_pos h]
      rw [getLast?_cons_of_ne_nil _ _ (split_go_ne_nil ms max_amount rest 0 _)]
      refine ih 0 _ (by omega) (fun _ => rfl) ?_
      rcases hdvd with ⟨k, hk⟩
      refine ⟨k - 1, ?_⟩
      simp only [List.length_cons] at hk
      have : 1 ≤ k := by nlinarith
      have : max_amount * k = max_amount * (k - 1) + max_amount := by
        cases k with
        | zero => omega
        | succ k => simp [Nat.mul_succ]
      omega
    · rw [if_neg h]
      refine ih (cnt + 1) _ (by omega) (by omega) ?_
      rcases hdvd with ⟨k, hk⟩
      refine ⟨k, by simp only [List.length_cons] at hk; omega⟩

/-- C1 counterexample: the 18-entry change set of the repository's own test,
encoded under the 10-entry cap (`data_size = 4`, `40 / 4 = 10`), splits into
records of 10 and 8 entries — not into two records of 9 entries each as the
claim states. -/
theorem signal_split_C1_counterexample :
    (split_changes_on_data_limit_signal testChanges18 4).map
        (fun l => l.map (fun c => c.signal_names.length)) = some [10, 8]
  ∧ ¬ ((split_changes_on_data_limit_signal testChanges18 4).map
        (fun l => l.map (fun c => c.signal_names.length)) = some [9, 9]) :=
  ⟨by decide, by decide⟩

/-- C1 (amended): the 18-entry change set splits into two consecutive
records of 10 and 8 entries, both carrying the same delta-time field `003`,
together containing all 18 entries in ascending mapped-ID order with no
duplication or loss; in general every split chunk carries at most 10
entries, every chunk keeps the source `ms_from_beginning` (hence the same
delta time), and concatenating the chunks in order restores the original
entry sequence. -/
theorem signal_split_C1 :
    transform_signal_changes testChanges18 test_vlog_signal_name_mapping 180 =
      some ["0E003A0000010002000300040005000600070008000900",
        "0E00380A000B000C000D000E000F0010001100"]
  ∧ ∀ (changes : TimestampedChanges) (chunks : List TimestampedChanges),
      split_changes_on_data_limit_signal changes 4 = some chunks →
      (∀ c ∈ chunks, c.signal_names.length ≤ 10)
      ∧ (∀ c ∈ chunks, c.ms_from_beginning = changes.ms_from_beginning)
      ∧ (chunks.map TimestampedChanges.signal_names).flatten = changes.signal_names
      ∧ (chunks.map TimestampedChanges.signal_states).flatten
          = changes.signal_states.take changes.signal_names.length := by
  refine ⟨by decide, ?_⟩
  intro changes chunks h
  simp only [split_changes_on_data_limit_signal, Option.map_eq_some'] at h
  obtain ⟨pairs, hpairs, hchunks⟩ := h
  subst hchunks
  obtain ⟨hfst, hsnd⟩ := zipExact_eq_some _ _ _ hpairs
  refine ⟨?_, ?_, ?_, ?_⟩
  · intro c hc
    exact split_go_length_le changes.ms_from_beginning (40 / 4) pairs 0
      (TimestampedChanges.emptyAt changes.ms_from_beginning) (by norm_num) rfl c hc
  · intro c hc
    exact split_go_ms changes.ms_from_beginning (40 / 4) pairs 0
      (TimestampedChanges.emptyAt changes.ms_from_beginning) rfl c hc
  · rw [split_go_names]
    simp [TimestampedChanges.emptyAt, hfst]
  · rw [split_go_states]
    simp [TimestampedChanges.emptyAt, hsnd]

/-- Witness for C1: the no-loss conjunct applied at the 18-entry change
set. -/
theorem signal_split_C1_witness :
    (split_changes_on_data_limit_signal testChanges18 4).map
        (fun l => (l.map TimestampedChanges.signal_names).flatten)
      = some testChanges18.signal_names := by
  cases hs : split_changes_on_data_limit_signal testChanges18 4 with
  | none => exact absurd hs (by decide)
  | some chunks =>
    have h := (signal_split_C1.2 testChanges18 chunks hs).2.2.1
    simp [h]

/-- C10: a signal change set whose entry count is a positive exact multiple
of the 10-entry cap produces one additional trailing chunk: the chunk count
is `k + 1` and the last chunk is the empty change set at the same
`ms_from_beginning`; concretely, the 10-entry change set produces the full
record followed by the empty record `0E` + delta `003` + count `0`. -/
theorem trailing_empty_record_C10 :
    (∀ (changes : TimestampedChanges) (k : Nat) (chunks : List TimestampedChanges),
      split_changes_on_data_limit_signal changes 4 = some chunks →
      changes.signal_names.length = 10 * k → 0 < k →
      chunks.length = k + 1
      ∧ chunks.getLast? = some (TimestampedChanges.emptyAt changes.ms_from_beginning))
  ∧ transform_signal_changes testChanges10 test_vlog_signal_name_mapping 180 =
      some ["0E003A0000010002000300040005000600070008000900", "0E0030"] := by
  refine ⟨?_, by decide⟩
  intro changes k chunks h hlen hk
  simp only [split_changes_on_data_limit_signal, Option.map_eq_some'] at h
  obtain ⟨pairs, hpairs, hchunks⟩ := h
  subst hchunks
  obtain ⟨hfst, hsnd⟩ := zipExact_eq_some _ _ _ hpairs
  have hplen : pairs.length = changes.signal_names.length := by
    rw [← hfst]
    simp
  constructor
  · rw [split_go_length _ _ pairs 0 _ (by norm_num), Nat.zero_add, hplen, hlen]
    show 10 * k / 10 + 1 = k + 1
    rw [Nat.mul_div_cancel_left k (by norm_num)]
  · refine split_go_last_empty _ _ pairs 0 _ (by norm_num) (fun _ => rfl) ?_
    rw [Nat.zero_add, hplen, hlen]
    exact ⟨k, rfl⟩

/-- Witness for C10: at the 10-entry change set (`k = 1`) there are two
chunks and the last is empty at `ms_from_beginning = 530`. -/
theorem trailing_empty_record_C10_witness :
    (split_changes_on_data_limit_signal testChanges10 4).map List.length = some 2
  ∧ (split_changes_on_data_limit_signal testChanges10 4).bind List.getLast?
      = some (TimestampedChanges.emptyAt 530) := by
  cases hs : split_changes_on_data_limit_signal testChanges10 4 with
  | none => exact absurd hs (by decide)
  | some chunks =>
    obtain ⟨h1, h2⟩ :=
      trailing_empty_record_C10.1 testChanges10 1 chunks hs (by decide) (by decide)
    refine ⟨by simp [h1], ?_⟩
    show chunks.getLast? = some (TimestampedChanges.emptyAt 530)
    exact h2

/-- C6 counterexample: a signal change set 409600 ms past the reference has
delta `4096` deciseconds, which does not fit in three hex digits; the
encoder performs no validation and silently emits a record with a
four-digit delta field (`0E` + `1000` + count `1` + one pair). -/
theorem delta_time_C6_counterexample :
    transform_signal_changes testChangesWide test_vlog_signal_name_mapping 0 =
      some ["0E100010000"]
  ∧ from_tlcfi_time_to_vlog_time (409600 - 0) = 4096
  ∧ (hexPad 3 (from_tlcfi_time_to_vlog_time (409600 - 0))).length = 4 :=
  ⟨by decide, by decide, by decide⟩

/-- C6 (amended): the delta-time field equals `(ms_from_beginning −
last_reference_ms) / 100` under truncating integer division and both
transforms place it as a `{:03X}` field directly after the type byte; the
rendering has exactly three hex digits whenever the delta is below 4096,
but no validation exists — larger values silently widen the field (see the
counterexample). -/
theorem delta_time_C6 :
    (∀ t : Nat, from_tlcfi_time_to_vlog_time t = t / 100)
  ∧ (∀ n : Nat, n < 4096 → (hexPad 3 n).length = 3)
  ∧ (∀ (mapping : String → Option Nat) (last : Nat) (changes : TimestampedChanges)
        (msg : String), signal_message mapping last changes = some msg →
      ∃ rest : String, msg = "0E"
        ++ hexPad 3 (from_tlcfi_time_to_vlog_time (changes.ms_from_beginning - last)) ++ rest)
  ∧ (∀ (mapping : String → Option Nat) (last : Nat) (changes : TimestampedChanges)
        (msg : String), transform_detector_changes changes mapping last = some msg →
      ∃ rest : String, msg = "06"
        ++ hexPad 3 (from_tlcfi_time_to_vlog_time (changes.ms_from_beginning - last)) ++ rest) := by
  refine ⟨fun _ => rfl, hexPad_three_length, ?_, ?_⟩
  · intro mapping last changes msg h
    simp only [signal_message, Option.bind_eq_bind, Option.bind_eq_some,
      Option.pure_def, Option.some.injEq] at h
    obtain ⟨ids, _, dyn, _, h⟩ := h
    exact ⟨natToHex changes.signal_names.length ++ strConcat dyn,
      by rw [← h]; simp [String.append_assoc]⟩
  · intro mapping last changes msg h
    simp only [transform_detector_changes, Option.bind_eq_bind, Option.bind_eq_some,
      Option.pure_def, Option.some.injEq] at h
    obtain ⟨ids, _, dyn, _, h⟩ := h
    exact ⟨natToDec changes.detector_names.length ++ strConcat dyn,
      by rw [← h]; simp [String.append_assoc]⟩

/-- Witness for C6: the fitting-delta conjunct applied at the repository
test's delta of 350 ms = 3 ds. -/
theorem delta_time_C6_witness :
    (hexPad 3 (from_tlcfi_time_to_vlog_time (530 - 180))).length = 3 :=
  delta_time_C6.2.1 (from_tlcfi_time_to_vlog_time (530 - 180)) (by decide)

/-- C7: in each `to_vlog` loop iteration, when the change set's
`ms_from_beginning` is at least 300000 ms past the last emitted time
reference, a new time reference anchored at that `ms_from_beginning` is
emitted immediately before the change messages and the reference timestamp
becomes that value; when the elapsed time is smaller, no time reference is
emitted and the reference timestamp is unchanged. -/
theorem time_reference_C7 (mapS mapD : String → Option Nat) (start : NaiveDateTime)
    (msgs : List String) (last : Nat) (tc : TimestampedChanges) :
    (300000 ≤ tc.ms_from_beginning - last →
      to_vlog_step mapS mapD start (msgs, last) tc =
        (change_messages mapS mapD tc.ms_from_beginning tc).map
          (fun m => (msgs ++ [get_time_reference start tc.ms_from_beginning] ++ m,
            tc.ms_from_beginning)))
  ∧ (tc.ms_from_beginning - last < 300000 →
      to_vlog_step mapS mapD start (msgs, last) tc =
        (change_messages mapS mapD last tc).map (fun m => (msgs ++ m, last))) := by
  constructor
  · intro h
    have hc : TIME_REFERENCE_INTERVAL_IN_S * 1000 ≤ tc.ms_from_beginning - (msgs, last).2 := h
    simp only [to_vlog_step, if_pos hc]
  · intro h
    have hc : ¬ TIME_REFERENCE_INTERVAL_IN_S * 1000 ≤ tc.ms_from_beginning - (msgs, last).2 :=
      Nat.not_le.2 h
    simp only [to_vlog_step, if_neg hc]

/-- Witness for C7: at elapsed 300000 ms a reference record for
2021-12-15T11:05:00.0 is emitted and the reference timestamp becomes
300000; at elapsed 350 ms the 10-entry change set is encoded with no new
reference and the timestamp stays 180. -/
theorem time_reference_C7_witness :
    to_vlog_step test_vlog_signal_name_mapping test_vlog_detector_name_mapping
        testStartDateTime ([], 0)
        { ms_from_beginning := 300000, signal_names := [], signal_states := [],
          detector_names := [], detector_states := [] } =
      some (["012021121511050000"], 300000)
  ∧ to_vlog_step test_vlog_signal_name_mapping test_vlog_detector_name_mapping
        testStartDateTime ([], 180) testChanges10 =
      some (["0E003A0000010002000300040005000600070008000900", "0E0030"], 180) := by
  constructor
  · rw [(time_reference_C7 test_vlog_signal_name_mapping test_vlog_detector_name_mapping
      testStartDateTime [] 0 _).1 (by decide)]
    decide
  · rw [(time_reference_C7 test_vlog_signal_name_mapping test_vlog_detector_name_mapping
      testStartDateTime [] 180 testChanges10).2 (by decide)]
    decide

/-- C8 counterexample: a detector change set with ten entries is emitted
with its count field rendered in decimal (`{:?}`), producing the two
characters `10` instead of the single hex digit `A`; the record has 47
characters, not the 46 implied by a one-hex-digit count. -/
theorem record_layout_C8_counterexample :
    transform_detector_changes testChangesDet10 test_wide_detector_mapping 0 =
      some "06000100000010002000300040005000600070008000900"
  ∧ ("06000100000010002000300040005000600070008000900" : String).length = 47
  ∧ natToDec 10 = "10"
  ∧ natToHex 10 = "A" :=
  ⟨by decide, by decide, by decide, by decide⟩

/-- C8 (amended): every emitted change record is the type byte (`0E` for
signal, `06` for detector) followed by the `{:03X}` delta time, then the
entry count, then the entries in ascending mapped-ID order (stable sort)
with 2-hex-digit id and 2-hex-digit state code each — with the caveat that
the signal count is rendered as hex (`{:X}`) while the detector count is
rendered as decimal (`{:?}`); the two renderings agree for counts up to 9
but diverge from 10 entries (see the counterexample). -/
theorem record_layout_C8 :
    transform_signal_changes
      { ms_from_beginning := 530, signal_names := ["71", "11"],
        signal_states := [SignalState.Red, SignalState.Amber],
        detector_names := [], detector_states := [] }
      test_vlog_signal_name_mapping 180 = some ["0E00320A021200"]
  ∧ transform_detector_changes
      { ms_from_beginning := 640, signal_names := [], signal_states := [],
        detector_names := ["D712", "D713"],
        detector_states := [DetectorState.OCCUPIED, DetectorState.FREE] }
      test_vlog_detector_name_mapping 80 = some "06005202000401"
  ∧ (∀ l : List (Nat × Nat), List.Sorted byVlogId (List.insertionSort byVlogId l))
  ∧ (∀ n : Nat, n ≤ 9 → natToDec n = natToHex n)
  ∧ (∀ u : Nat, u < 256 → (hexPad 2 u).length = 2)
  ∧ (∀ (mapping : String → Option Nat) (last : Nat) (changes : TimestampedChanges)
        (msg : String), signal_message mapping last changes = some msg →
      ∃ rest : String, msg = "0E"
        ++ hexPad 3 (from_tlcfi_time_to_vlog_time (changes.ms_from_beginning - last))
        ++ natToHex changes.signal_names.length ++ rest)
  ∧ (∀ (mapping : String → Option Nat) (last : Nat) (changes : TimestampedChanges)
        (msg : String), transform_detector_changes changes mapping last = some msg →
      ∃ rest : String, msg = "06"
        ++ hexPad 3 (from_tlcfi_time_to_vlog_time (changes.ms_from_beginning - last))
        ++ natToDec changes.detector_names.length ++ rest) := by
  refine ⟨by decide, by decide, ?_, ?_, hexPad_two_length, ?_, ?_⟩
  · intro l
    exact List.sorted_insertionSort byVlogId l
  · intro n hn
    revert n hn
    decide
  · intro mapping last changes msg h
    simp only [signal_message, Option.bind_eq_bind, Option.bind_eq_some,
      Option.pure_def, Option.some.injEq] at h
    obtain ⟨ids, _, dyn, _, h⟩ := h
    exact ⟨strConcat dyn, by rw [← h]⟩
  · intro mapping last changes msg h
    simp only [transform_detector_changes, Option.bind_eq_bind, Option.bind_eq_some,
      Option.pure_def, Option.some.injEq] at h
    obtain ⟨ids, _, dyn, _, h⟩ := h
    exact ⟨strConcat dyn, by rw [← h]⟩

/-- Witness for C8: the count-agreement conjunct applied at a two-entry
record and the id-width conjunct applied at id 18. -/
theorem record_layout_C8_witness :
    natToDec 2 = natToHex 2 ∧ (hexPad 2 18).length = 2 :=
  ⟨record_layout_C8.2.2.2.1 2 (by decide), record_layout_C8.2.2.2.2.1 18 (by decide)⟩

